import Mathlib

/-!
Verification development for the decentralized cloud-storage marketplace
simulation (`enhanced_cloud_storage.py`).  The Python source is shallowly
embedded: floats become `ℚ`, Python `int` becomes `Int` (counters become
`Nat`), Python dicts become insertion-ordered association lists with
Python-dict update semantics (overwrite in place, append when fresh), and
every random draw becomes an explicit boolean or rational parameter.
-/

/-- Lookup in an insertion-ordered association list; models Python
`d[k]` / `d.get(k)` / `k in d`. -/
def dictGet {α : Type} : List (String × α) → String → Option α
  | [], _ => none
  | (k', v') :: rest, k => if k' = k then some v' else dictGet rest k

/-- Python-dict assignment `d[k] = v`: overwrite in place when the key is
present, append at the end otherwise (insertion order preserved). -/
def dictInsert {α : Type} : List (String × α) → String → α → List (String × α)
  | [], k, v => [(k, v)]
  | (k', v') :: rest, k, v =>
    if k' = k then (k, v) :: rest else (k', v') :: dictInsert rest k v

/-- Python-dict `d.get(k, 0)` for rational-valued dicts. -/
def dictGetD (m : List (String × ℚ)) (k : String) : ℚ :=
  (dictGet m k).getD 0

/-- Storage request data structure (`StorageRequest` dataclass). -/
structure StorageRequest where
  buyer_id : String
  space_gb : Int
  duration_hours : ℚ
  max_price_per_gb_hour : ℚ
  timestamp : ℚ
  request_id : String
deriving DecidableEq

/-- Storage contract data structure (`StorageContract` dataclass). -/
structure StorageContract where
  contract_id : String
  buyer_id : String
  provider_id : String
  space_gb : Int
  duration_hours : ℚ
  price_per_gb_hour : ℚ
  total_cost : ℚ
  start_time : ℚ
  end_time : ℚ
  status : String
deriving DecidableEq

/-- Provider information cached by the broker (`ProviderInfo` dataclass). -/
structure ProviderInfo where
  agent_id : String
  total_space_gb : Int
  available_space_gb : Int
  reputation : ℚ
  price_per_gb_hour : ℚ
  last_seen : ℚ
  success_count : Nat
  failure_count : Nat
  response_time_avg : ℚ
deriving DecidableEq

/-- Body of an `allocation_response` message sent by a provider.  An
accepted response carries the contract id and no reason; a rejected
response carries a reason and no contract id. -/
structure AllocationResponse where
  request_id : String
  status : String
  reason : Option String
  contract_id : Option String
  provider_id : String
deriving DecidableEq

/-- Body of a `storage_response` message relayed by the broker to a
buyer. -/
structure StorageResponse where
  request_id : String
  status : String
  reason : Option String
  contract : Option StorageContract
deriving DecidableEq

/-- Mutable state of a `StorageProviderAgent`: the capacity ledger, the
active-contract dict, the reputation scalar and the outcome counters. -/
structure ProviderState where
  agent_id : String
  total_space_gb : Int
  available_space_gb : Int
  active_contracts : List (String × StorageContract)
  reputation : ℚ
  success_count : Nat
  failure_count : Nat
deriving DecidableEq

/-- Provider construction (`StorageProviderAgent.__init__`):
`available_space_gb = total_space_gb`, no active contracts, reputation
starts at the neutral 5.0. -/
def ProviderState.init (aid : String) (total : Int) : ProviderState :=
  { agent_id := aid
    total_space_gb := total
    available_space_gb := total
    active_contracts := []
    reputation := 5
    success_count := 0
    failure_count := 0 }

/-- `StorageProviderAgent.update_reputation`: a success multiplies the
reputation by 1.02 clamped above at 10.0 and bumps `success_count`; a
failure multiplies it by 0.98 clamped below at 0.1 and bumps
`failure_count`. -/
def ProviderState.update_reputation (s : ProviderState) (success : Bool) : ProviderState :=
  if success then
    { s with success_count := s.success_count + 1
             reputation := min (s.reputation * (102 / 100)) 10 }
  else
    { s with failure_count := s.failure_count + 1
             reputation := max (s.reputation * (98 / 100)) (1 / 10) }

/-- `StorageProviderAgent.can_fulfill_request`: reject when available
space is short, otherwise reject when the failure draw fires
(`failDraw` models `random.random() < self.failure_probability`),
otherwise accept. -/
def ProviderState.can_fulfill_request (s : ProviderState) (space_needed : Int)
    (failDraw : Bool) : Bool :=
  if s.available_space_gb < space_needed then false
  else if failDraw then false
  else true

/-- Core of `StorageProviderAgent.process_allocation_request` on an
`allocation_request` carrying `contract` and `request_id`.  On accept:
store the contract in the active dict, decrement available space, update
reputation upward, reply `accepted`.  On reject: update reputation
downward and reply `rejected` with reason `insufficient_space` when
capacity was the binding constraint, `provider_failure` otherwise. -/
def ProviderState.process_allocation_request (s : ProviderState)
    (contract : StorageContract) (request_id : String) (failDraw : Bool) :
    ProviderState × AllocationResponse :=
  let space_needed := contract.space_gb
  if s.can_fulfill_request space_needed failDraw then
    let s₁ := { s with
      active_contracts := dictInsert s.active_contracts contract.contract_id contract
      available_space_gb := s.available_space_gb - space_needed }
    (s₁.update_reputation true,
      { request_id := request_id
        status := "accepted"
        reason := none
        contract_id := some contract.contract_id
        provider_id := s.agent_id })
  else
    (s.update_reputation false,
      { request_id := request_id
        status := "rejected"
        reason := some (if s.available_space_gb < space_needed then
            "insufficient_space" else "provider_failure")
        contract_id := none
        provider_id := s.agent_id })

/-- One iteration of `StorageProviderAgent.contract_manager`: every
active contract with `now ≥ end_time` releases its space back to
`available_space_gb` and is removed from the active dict. -/
def ProviderState.contract_manager_sweep (s : ProviderState) (now : ℚ) : ProviderState :=
  let expired := s.active_contracts.filter (fun kv => decide (kv.2.end_time ≤ now))
  { s with
    available_space_gb :=
      s.available_space_gb + (expired.map (fun kv => kv.2.space_gb)).sum
    active_contracts :=
      s.active_contracts.filter (fun kv => !(decide (kv.2.end_time ≤ now))) }

/-- The capacity-ledger invariant claimed for every provider:
`0 ≤ available ≤ total` and `total − available` equals the sum of the
space of the active contracts. -/
def ledger_invariant (s : ProviderState) : Prop :=
  0 ≤ s.available_space_gb ∧ s.available_space_gb ≤ s.total_space_gb ∧
    s.total_space_gb - s.available_space_gb =
      (s.active_contracts.map (fun kv => kv.2.space_gb)).sum

instance (s : ProviderState) : Decidable (ledger_invariant s) := by
  unfold ledger_invariant; infer_instance

/-- Well-formedness carried alongside the ledger invariant: every active
contract reserves a nonnegative amount of space (requests are generated
with `space_gb > 0`). -/
def ProviderInv (s : ProviderState) : Prop :=
  ledger_invariant s ∧ ∀ kv ∈ s.active_contracts, 0 ≤ kv.2.space_gb

/-- The operations that mutate a provider's capacity ledger. -/
inductive ProviderOp
  | alloc (c : StorageContract) (rid : String) (failDraw : Bool)
  | sweep (now : ℚ)

/-- Apply a ledger-mutating operation to a provider state. -/
def ProviderState.applyOp (s : ProviderState) : ProviderOp → ProviderState
  | .alloc c rid draw => (s.process_allocation_request c rid draw).1
  | .sweep now => s.contract_manager_sweep now

/-- Side condition under which an operation respects the ledger: an
admitted contract reserves nonnegative space and carries a contract id
not already present in the provider's active dict (Python dict
assignment silently overwrites an existing entry otherwise). -/
def OpWF (s : ProviderState) : ProviderOp → Prop
  | .alloc c _ _ => 0 ≤ c.space_gb ∧ dictGet s.active_contracts c.contract_id = none
  | .sweep _ => True

/-- Mutable state of the `IntermediaryNetworkAgent` (broker): the
registered-provider dict (insertion-ordered, as Python dict values
iteration), the `provider_last_seen` dict and the pending-allocation
dict. -/
structure BrokerState where
  providers : List (String × ProviderInfo)
  provider_last_seen : List (String × ℚ)
  pending_allocations : List (String × (String × StorageRequest × ProviderInfo))

/-- The candidate filter inside `IntermediaryNetworkAgent.select_provider`:
enough available space, price within the request's maximum, reputation at
least the floor 1.0, and seen within the last 30 seconds (the freshness
check reads the separate `provider_last_seen` dict with default 0). -/
def suitable (now : ℚ) (lastSeen : List (String × ℚ)) (request : StorageRequest)
    (provider : ProviderInfo) : Bool :=
  decide (request.space_gb ≤ provider.available_space_gb) &&
  decide (provider.price_per_gb_hour ≤ request.max_price_per_gb_hour) &&
  decide ((1 : ℚ) ≤ provider.reputation) &&
  decide (now - dictGetD lastSeen provider.agent_id < 30)

/-- `calculate_score` inside `select_provider`: 0.4·(reputation/10) +
0.3·(1 − price/max_price) + 0.2·(available/total) +
0.1·(success/max(success+failure, 1)). -/
def calculate_score (request : StorageRequest) (provider : ProviderInfo) : ℚ :=
  (provider.reputation / 10) * (4 / 10) +
  (1 - provider.price_per_gb_hour / request.max_price_per_gb_hour) * (3 / 10) +
  ((provider.available_space_gb : ℚ) / (provider.total_space_gb : ℚ)) * (2 / 10) +
  ((provider.success_count : ℚ) / ((max (provider.success_count + provider.failure_count) 1 : ℕ) : ℚ)) * (1 / 10)

/-- First maximal element of `p :: ps` under `score`: Python's stable
descending sort (`sort(key=calculate_score, reverse=True)`) followed by
taking element 0 returns the earliest element of maximal score, which is
what this left fold computes. -/
def pickBest {α : Type} (score : α → ℚ) (p : α) (ps : List α) : α :=
  ps.foldl (fun best q => if score best < score q then q else best) p

/-- `IntermediaryNetworkAgent.select_provider`: filter the registered
providers (in dict iteration order) through `suitable`; return `none`
when no candidate qualifies, otherwise the first candidate of maximal
`calculate_score`. -/
def select_provider (now : ℚ) (providers : List (String × ProviderInfo))
    (lastSeen : List (String × ℚ)) (request : StorageRequest) : Option ProviderInfo :=
  match (providers.map Prod.snd).filter (suitable now lastSeen request) with
  | [] => none
  | p :: ps => some (pickBest (calculate_score request) p ps)

/-- The pending contract the broker constructs at match time inside
`handle_storage_request` (status `pending`); `now` models the
`time.time()` observations and `cid` the generated contract id. -/
def mkPendingContract (now : ℚ) (cid : String) (request : StorageRequest)
    (provider : ProviderInfo) : StorageContract :=
  { contract_id := cid
    buyer_id := request.buyer_id
    provider_id := provider.agent_id
    space_gb := request.space_gb
    duration_hours := request.duration_hours
    price_per_gb_hour := provider.price_per_gb_hour
    total_cost := (request.space_gb : ℚ) * request.duration_hours * provider.price_per_gb_hour
    start_time := now
    end_time := now + request.duration_hours * 3600
    status := "pending" }

/-- The active contract the broker builds inside
`handle_allocation_response` when relaying a non-corrupted acceptance to
the buyer (status `active`). -/
def mkActiveContract (now : ℚ) (cid : String) (request : StorageRequest)
    (provider : ProviderInfo) : StorageContract :=
  { contract_id := cid
    buyer_id := request.buyer_id
    provider_id := provider.agent_id
    space_gb := request.space_gb
    duration_hours := request.duration_hours
    price_per_gb_hour := provider.price_per_gb_hour
    total_cost := (request.space_gb : ℚ) * request.duration_hours * provider.price_per_gb_hour
    start_time := now
    end_time := now + request.duration_hours * 3600
    status := "active" }

/-- Outcome of the broker's `handle_storage_request`: either forward an
`allocation_request` (carrying the pending contract) to the selected
provider, or send a failure `storage_response` to the buyer. -/
inductive BrokerAction
  | forward (provider_id : String) (request_id : String) (contract : StorageContract)
  | failure (buyer_id : String) (response : StorageResponse)
deriving DecidableEq

/-- `IntermediaryNetworkAgent.handle_storage_request`: select a provider;
if one is found, build the pending contract, record the pending
allocation and forward an `allocation_request`; otherwise reply to the
buyer with `failure` / `no_suitable_provider`. -/
def handle_storage_request (now : ℚ) (cid : String) (s : BrokerState)
    (buyer_id : String) (request : StorageRequest) : BrokerState × BrokerAction :=
  match select_provider now s.providers s.provider_last_seen request with
  | some p =>
    ({ s with pending_allocations :=
        dictInsert s.pending_allocations request.request_id (buyer_id, request, p) },
     .forward p.agent_id request.request_id (mkPendingContract now cid request p))
  | none =>
    (s, .failure buyer_id
      { request_id := request.request_id
        status := "failure"
        reason := some "no_suitable_provider"
        contract := none })

/-- The broker's provisional reputation nudge on its cached
`ProviderInfo` after an allocation response: ×1.01 capped at 10 on
acceptance, ×0.99 floored at 0.1 on rejection. -/
def nudgeProvider (providers : List (String × ProviderInfo)) (pid : String)
    (success : Bool) : List (String × ProviderInfo) :=
  providers.map (fun kv =>
    if kv.1 = pid then
      (kv.1,
        if success then
          { kv.2 with success_count := kv.2.success_count + 1
                      reputation := min (kv.2.reputation * (101 / 100)) 10 }
        else
          { kv.2 with failure_count := kv.2.failure_count + 1
                      reputation := max (kv.2.reputation * (99 / 100)) (1 / 10) })
    else kv)

/-- `IntermediaryNetworkAgent.handle_allocation_response`: look up the
pending allocation; on `accepted`, nudge the cached reputation up and
either (corruption draw fired) report `failure`/`network_corruption` to
the buyer, or relay `success` with the rebuilt active contract; on
rejection, nudge down and relay the provider-supplied reason.  The
returned list holds every outbound message as (destination, body): the
code sends exactly one message, to the buyer, and none to the
provider. -/
def handle_allocation_response (now : ℚ) (s : BrokerState)
    (resp : AllocationResponse) (corruptDraw : Bool) :
    BrokerState × List (String × StorageResponse) :=
  match dictGet s.pending_allocations resp.request_id with
  | none => (s, [])
  | some (buyer_id, original_request, selected_provider) =>
    let remaining := s.pending_allocations.filter
      (fun kv => !(decide (kv.1 = resp.request_id)))
    if resp.status = "accepted" then
      let providers₁ := nudgeProvider s.providers selected_provider.agent_id true
      if corruptDraw then
        ({ s with providers := providers₁, pending_allocations := remaining },
         [(buyer_id,
           { request_id := resp.request_id
             status := "failure"
             reason := some "network_corruption"
             contract := none })])
      else
        ({ s with providers := providers₁, pending_allocations := remaining },
         [(buyer_id,
           { request_id := resp.request_id
             status := "success"
             reason := none
             contract := some (mkActiveContract now (resp.contract_id.getD "")
               original_request selected_provider) })])
    else
      let providers₁ := nudgeProvider s.providers selected_provider.agent_id false
      ({ s with providers := providers₁, pending_allocations := remaining },
       [(buyer_id,
         { request_id := resp.request_id
           status := "failure"
           reason := some (resp.reason.getD "provider_rejected")
           contract := none })])

/-- Message envelope created by `MessageBus.send_message`. -/
structure Envelope (α : Type) where
  from_agent : String
  to_agent : String
  body : α
  timestamp : ℚ
  latency : ℚ
  id : Nat
deriving DecidableEq

/-- `MessageBus` state: per-agent FIFO mailboxes and the monotonic
message counter. -/
structure MessageBus (α : Type) where
  mailboxes : List (String × List (Envelope α))
  message_count : Nat
deriving DecidableEq

/-- `MessageBus.register_agent`: create an empty mailbox for the id. -/
def MessageBus.register_agent {α : Type} (bus : MessageBus α) (aid : String) :
    MessageBus α :=
  { bus with mailboxes := dictInsert bus.mailboxes aid [] }

/-- `MessageBus.send_message`, with the random latency draw passed in as
`latency` and `now` modelling `time.time()`.  Returns the success flag,
the new bus state, and the simulated time the caller was suspended for
(the unregistered-destination check precedes the latency sleep, so a
failed send suspends for 0). -/
def MessageBus.send_message {α : Type} (bus : MessageBus α)
    (from_agent to_agent : String) (message : α) (now latency : ℚ)
    (simulate_latency : Bool := true) : Bool × MessageBus α × ℚ :=
  match dictGet bus.mailboxes to_agent with
  | none => (false, bus, 0)
  | some inbox =>
    let slept := if simulate_latency then latency else 0
    let env : Envelope α :=
      { from_agent := from_agent
        to_agent := to_agent
        body := message
        timestamp := now
        latency := slept
        id := bus.message_count }
    (true,
     { mailboxes := dictInsert bus.mailboxes to_agent (inbox ++ [env])
       message_count := bus.message_count + 1 },
     slept)

/-- `SimulationMetrics` accumulator state (the fields read by
`get_summary`). -/
structure SimulationMetrics where
  start_time : ℚ
  total_requests : Nat
  successful_requests : Nat
  failed_requests : Nat
  response_times : List ℚ
  contracts_created : Nat
  contracts_completed : Nat
  contracts_failed : Nat
  contract_durations : List ℚ
  contract_values : List ℚ
  provider_utilizations : List ℚ
  provider_reputations : List ℚ
  provider_earnings : List ℚ
  network_corruptions : Nat
  provider_failures : Nat
  network_latencies : List ℚ
deriving DecidableEq

/-- `SimulationMetrics.reset`: zero counters and empty sample lists,
`start_time` set to the current time. -/
def SimulationMetrics.reset (now : ℚ) : SimulationMetrics :=
  { start_time := now
    total_requests := 0
    successful_requests := 0
    failed_requests := 0
    response_times := []
    contracts_created := 0
    contracts_completed := 0
    contracts_failed := 0
    contract_durations := []
    contract_values := []
    provider_utilizations := []
    provider_reputations := []
    provider_earnings := []
    network_corruptions := 0
    provider_failures := 0
    network_latencies := [] }

/-- `SimulationMetrics.record_request`: bump `total_requests`, then
either `successful_requests` or `failed_requests`; append the response
time sample only when it is positive. -/
def SimulationMetrics.record_request (m : SimulationMetrics) (successful : Bool)
    (response_time : ℚ := 0) : SimulationMetrics :=
  { m with
    total_requests := m.total_requests + 1
    successful_requests :=
      if successful then m.successful_requests + 1 else m.successful_requests
    failed_requests :=
      if successful then m.failed_requests else m.failed_requests + 1
    response_times :=
      if 0 < response_time then m.response_times ++ [response_time]
      else m.response_times }

/-- `statistics.mean` on a nonempty sample list. -/
def listMean (xs : List ℚ) : ℚ := xs.sum / (xs.length : ℚ)

/-- The squared deviations summed and divided by n−1; `statistics.stdev`
is its square root.  Only ever evaluated behind a `length > 1` guard in
`get_summary`, mirroring the source. -/
def sampleVariance (xs : List ℚ) : ℚ :=
  (xs.map (fun x => (x - listMean xs) ^ 2)).sum / ((xs.length : ℚ) - 1)

/-- The summary dictionary returned by `SimulationMetrics.get_summary`,
flattened into a structure. -/
structure Summary where
  simulation_duration : ℚ
  requests_total : Nat
  requests_successful : Nat
  requests_failed : Nat
  success_rate : ℚ
  avg_response_time : ℚ
  std_response_time : ℚ
  contracts_created : Nat
  contracts_completed : Nat
  contracts_failed : Nat
  avg_duration_hours : ℚ
  avg_value : ℚ
  completion_rate : ℚ
  avg_utilization : ℚ
  avg_reputation : ℚ
  total_earnings : ℚ
  avg_earnings_per_provider : ℚ
  corruptions : Nat
  provider_failures_count : Nat
  avg_latency : ℚ
  corruption_rate : ℚ
deriving DecidableEq

/-- `SimulationMetrics.get_summary`, parametric in the square-root
implementation `sqrtFn` used by `statistics.stdev` (never consulted when
fewer than two response-time samples exist) and in the current time
`now`.  Empty sample lists yield 0 means; the rate divisions are guarded
by `max(·, 1)`; the function is total, so no call raises. -/
def SimulationMetrics.get_summary (m : SimulationMetrics) (sqrtFn : ℚ → ℚ)
    (now : ℚ) : Summary :=
  { simulation_duration := now - m.start_time
    requests_total := m.total_requests
    requests_successful := m.successful_requests
    requests_failed := m.failed_requests
    success_rate :=
      ((m.successful_requests : ℚ) / ((max m.total_requests 1 : ℕ) : ℚ)) * 100
    avg_response_time :=
      if m.response_times.isEmpty then 0 else listMean m.response_times
    std_response_time :=
      if 1 < m.response_times.length then sqrtFn (sampleVariance m.response_times)
      else 0
    contracts_created := m.contracts_created
    contracts_completed := m.contracts_completed
    contracts_failed := m.contracts_failed
    avg_duration_hours :=
      if m.contract_durations.isEmpty then 0 else listMean m.contract_durations
    avg_value :=
      if m.contract_values.isEmpty then 0 else listMean m.contract_values
    completion_rate :=
      ((m.contracts_completed : ℚ) / ((max m.contracts_created 1 : ℕ) : ℚ)) * 100
    avg_utilization :=
      if m.provider_utilizations.isEmpty then 0 else listMean m.provider_utilizations
    avg_reputation :=
      if m.provider_reputations.isEmpty then 0 else listMean m.provider_reputations
    total_earnings :=
      if m.provider_earnings.isEmpty then 0 else m.provider_earnings.sum
    avg_earnings_per_provider :=
      if 0 < (if m.provider_earnings.isEmpty then 0 else m.provider_earnings.sum) then
        (if m.provider_earnings.isEmpty then 0 else m.provider_earnings.sum) / 3
      else 0
    corruptions := m.network_corruptions
    provider_failures_count := m.provider_failures
    avg_latency :=
      if m.network_latencies.isEmpty then 0 else listMean m.network_latencies
    corruption_rate :=
      ((m.network_corruptions : ℚ) / ((max m.total_requests 1 : ℕ) : ℚ)) * 100 }

/-- The two metrics touch points of a buyer for one storage request:
`send` is the successful hand-off to the broker inside `request_behavior`
(which records a failed request with no response time), `respond` is the
arrival of the `storage_response` inside `process_response` (which
records the final outcome with the measured response time). -/
inductive BuyerEvent
  | send
  | respond (success : Bool) (rt : ℚ)

/-- Effect of one buyer event on the global metrics. -/
def applyBuyerEvent (m : SimulationMetrics) : BuyerEvent → SimulationMetrics
  | .send => m.record_request false 0
  | .respond b rt => m.record_request b rt

/-- Fold a trace of buyer events into the metrics. -/
def runBuyerEvents (m : SimulationMetrics) (evts : List BuyerEvent) :
    SimulationMetrics :=
  evts.foldl applyBuyerEvent m

/-- Number of successful sends in a buyer-event trace. -/
def countSends (evts : List BuyerEvent) : Nat :=
  evts.countP (fun e => match e with | .send => true | _ => false)

/-- Number of storage responses in a buyer-event trace. -/
def countResponds (evts : List BuyerEvent) : Nat :=
  evts.countP (fun e => match e with | .respond _ _ => true | _ => false)

/-- Number of successful storage responses in a buyer-event trace. -/
def countSuccesses (evts : List BuyerEvent) : Nat :=
  evts.countP (fun e => match e with | .respond true _ => true | _ => false)

lemma dictGet_dictInsert_self {α : Type} (m : List (String × α)) (k : String) (v : α) :
    dictGet (dictInsert m k v) k = some v := by
  induction m with
  | nil => simp [dictInsert, dictGet]
  | cons kv rest ih =>
    by_cases h : kv.1 = k
    · simp [dictInsert, dictGet, h]
    · simp only [dictInsert, h, if_false]
      simpa [dictGet, h] using ih

lemma dictInsert_of_get_none {α : Type} (m : List (String × α)) (k : String) (v : α)
    (h : dictGet m k = none) : dictInsert m k v = m ++ [(k, v)] := by
  induction m with
  | nil => simp [dictInsert]
  | cons kv rest ih =>
    by_cases hk : kv.1 = k
    · simp [dictGet, hk] at h
    · simp only [dictGet, hk, if_false] at h
      simp [dictInsert, hk, ih h]

lemma dictGet_filter {α : Type} (p : String × α → Bool) (m : List (String × α))
    (k : String) (v : α) (hget : dictGet m k = some v) (hp : p (k, v) = true) :
    dictGet (m.filter p) k = some v := by
  induction m with
  | nil => simp [dictGet] at hget
  | cons kv rest ih =>
    obtain ⟨a, b⟩ := kv
    by_cases hk : a = k
    · simp only [dictGet, hk, if_true, Option.some.injEq] at hget
      subst hk; subst hget
      rw [List.filter_cons_of_pos hp]
      simp [dictGet]
    · simp only [dictGet, hk, if_false] at hget
      by_cases hpkv : p (a, b) = true
      · rw [List.filter_cons_of_pos hpkv]
        simp only [dictGet, hk, if_false]
        exact ih hget
      · rw [List.filter_cons_of_neg (by simpa using hpkv)]
        exact ih hget

lemma sum_map_filter_split {α : Type} (p : α → Bool) (f : α → Int) (l : List α) :
    ((l.filter p).map f).sum + ((l.filter (fun x => !(p x))).map f).sum
      = (l.map f).sum := by
  induction l with
  | nil => simp
  | cons x xs ih =>
    by_cases hx : p x = true
    · simp [List.filter_cons, hx, ← ih]; ring
    · have hx' : p x = false := by simpa using hx
      simp [List.filter_cons, hx', ← ih]; ring

lemma sum_map_nonneg {α : Type} (f : α → Int) (l : List α)
    (h : ∀ x ∈ l, 0 ≤ f x) : 0 ≤ (l.map f).sum := by
  induction l with
  | nil => simp
  | cons x xs ih =>
    simp only [List.map_cons, List.sum_cons]
    have := h x (List.mem_cons_self x xs)
    have := ih (fun y hy => h y (List.mem_cons_of_mem x hy))
    omega

lemma pickBest_cons {α : Type} (score : α → ℚ) (p x : α) (ps : List α) :
    pickBest score p (x :: ps)
      = pickBest score (if score p < score x then x else p) ps := rfl

lemma pickBest_spec {α : Type} (score : α → ℚ) (ps : List α) (p : α) :
    ∃ l₁ l₂, p :: ps = l₁ ++ pickBest score p ps :: l₂ ∧
      (∀ q ∈ l₁, score q < score (pickBest score p ps)) ∧
      ∀ q ∈ p :: ps, score q ≤ score (pickBest score p ps) := by
  induction ps generalizing p with
  | nil =>
    refine ⟨[], [], by simp [pickBest], by simp, ?_⟩
    intro q hq
    have : q = p := by simpa using hq
    simp [this, pickBest]
  | cons x ps ih =>
    rw [pickBest_cons]
    by_cases h : score p < score x
    · rw [if_pos h]
      obtain ⟨l₁, l₂, hdec, hfront, hmax⟩ := ih x
      have hqx : score x ≤ score (pickBest score x ps) :=
        hmax x (List.mem_cons_self x ps)
      refine ⟨p :: l₁, l₂, ?_, ?_, ?_⟩
      · rw [List.cons_append, ← hdec]
      · intro q hq
        rcases List.mem_cons.mp hq with rfl | hq'
        · exact lt_of_lt_of_le h hqx
        · exact hfront q hq'
      · intro q hq
        rcases List.mem_cons.mp hq with rfl | hq'
        · exact le_of_lt (lt_of_lt_of_le h hqx)
        · exact hmax q hq'
    · rw [if_neg h]
      obtain ⟨l₁, l₂, hdec, hfront, hmax⟩ := ih p
      have hxp : score x ≤ score p := le_of_not_lt h
      have hpmax : score p ≤ score (pickBest score p ps) :=
        hmax p (List.mem_cons_self p ps)
      cases l₁ with
      | nil =>
        simp only [List.nil_append] at hdec
        injection hdec with h1 h2
        refine ⟨[], x :: ps, ?_, by simp, ?_⟩
        · simp [← h1]
        · intro q hq
          rcases List.mem_cons.mp hq with rfl | hq'
          · exact hpmax
          · rcases List.mem_cons.mp hq' with rfl | hq''
            · exact le_trans hxp hpmax
            · exact hmax q (List.mem_cons_of_mem p hq'')
      | cons a l₁' =>
        injection hdec with h1 h2
        subst h1
        refine ⟨p :: x :: l₁', l₂, ?_, ?_, ?_⟩
        · rw [List.cons_append, List.cons_append]
          exact congrArg (List.cons p) (congrArg (List.cons x) h2)
        · intro q hq
          have hpfront : score p < score (pickBest score p ps) :=
            hfront p (List.mem_cons_self p l₁')
          rcases List.mem_cons.mp hq with rfl | hq'
          · exact hpfront
          · rcases List.mem_cons.mp hq' with rfl | hq''
            · exact lt_of_le_of_lt hxp hpfront
            · exact hfront q (List.mem_cons_of_mem p hq'')
        · intro q hq
          rcases List.mem_cons.mp hq with rfl | hq'
          · exact hpmax
          · rcases List.mem_cons.mp hq' with rfl | hq''
            · exact le_trans hxp hpmax
            · exact hmax q (List.mem_cons_of_mem p hq'')

lemma pickBest_mem {α : Type} (score : α → ℚ) (ps : List α) (p : α) :
    pickBest score p ps ∈ p :: ps := by
  obtain ⟨l₁, l₂, hdec, -, -⟩ := pickBest_spec score ps p
  rw [hdec]
  exact List.mem_append_right l₁ (List.mem_cons_self _ _)

lemma update_reputation_bounds (s : ProviderState) (b : Bool)
    (h1 : 1 / 10 ≤ s.reputation) (h2 : s.reputation ≤ 10) :
    1 / 10 ≤ (s.update_reputation b).reputation ∧
      (s.update_reputation b).reputation ≤ 10 := by
  cases b with
  | true =>
    simp only [ProviderState.update_reputation, if_true]
    constructor
    · apply le_min
      · nlinarith
      · norm_num
    · exact min_le_right _ _
  | false =>
    simp only [ProviderState.update_reputation, Bool.false_eq_true, if_false]
    constructor
    · exact le_max_right _ _
    · apply max_le
      · nlinarith
      · norm_num

lemma runBuyerEvents_counters (evts : List BuyerEvent) (m : SimulationMetrics) :
    (runBuyerEvents m evts).total_requests
        = m.total_requests + countSends evts + countResponds evts ∧
      (runBuyerEvents m evts).successful_requests
        = m.successful_requests + countSuccesses evts ∧
      countSuccesses evts ≤ countResponds evts ∧
      m.failed_requests + countSends evts ≤ (runBuyerEvents m evts).failed_requests := by
  induction evts generalizing m with
  | nil =>
    simp [runBuyerEvents, countSends, countResponds, countSuccesses]
  | cons e evts ih =>
    obtain ⟨iht, ihs, ihsr, ihf⟩ := ih (applyBuyerEvent m e)
    have hstep : runBuyerEvents m (e :: evts)
        = runBuyerEvents (applyBuyerEvent m e) evts := rfl
    rw [hstep]
    cases e with
    | send =>
      have ht : (applyBuyerEvent m .send).total_requests = m.total_requests + 1 := by
        simp [applyBuyerEvent, SimulationMetrics.record_request]
      have hs : (applyBuyerEvent m .send).successful_requests
          = m.successful_requests := by
        simp [applyBuyerEvent, SimulationMetrics.record_request]
      have hf : (applyBuyerEvent m .send).failed_requests = m.failed_requests + 1 := by
        simp [applyBuyerEvent, SimulationMetrics.record_request]
      have hc1 : countSends (BuyerEvent.send :: evts) = countSends evts + 1 := by
        simp [countSends, List.countP_cons]
      have hc2 : countResponds (BuyerEvent.send :: evts) = countResponds evts := by
        simp [countResponds, List.countP_cons]
      have hc3 : countSuccesses (BuyerEvent.send :: evts) = countSuccesses evts := by
        simp [countSuccesses, List.countP_cons]
      rw [hc1, hc2, hc3]
      omega
    | respond b rt =>
      have ht : (applyBuyerEvent m (.respond b rt)).total_requests
          = m.total_requests + 1 := by
        simp [applyBuyerEvent, SimulationMetrics.record_request]
      have hc1 : countSends (BuyerEvent.respond b rt :: evts) = countSends evts := by
        simp [countSends, List.countP_cons]
      have hc2 : countResponds (BuyerEvent.respond b rt :: evts)
          = countResponds evts + 1 := by
        simp [countResponds, List.countP_cons]
      cases b with
      | true =>
        have hs : (applyBuyerEvent m (.respond true rt)).successful_requests
            = m.successful_requests + 1 := by
          simp [applyBuyerEvent, SimulationMetrics.record_request]
        have hf : (applyBuyerEvent m (.respond true rt)).failed_requests
            = m.failed_requests := by
          simp [applyBuyerEvent, SimulationMetrics.record_request]
        have hc3 : countSuccesses (BuyerEvent.respond true rt :: evts)
            = countSuccesses evts + 1 := by
          simp [countSuccesses, List.countP_cons]
        rw [hc1, hc2, hc3]
        omega
      | false =>
        have hs : (applyBuyerEvent m (.respond false rt)).successful_requests
            = m.successful_requests := by
          simp [applyBuyerEvent, SimulationMetrics.record_request]
        have hf : (applyBuyerEvent m (.respond false rt)).failed_requests
            = m.failed_requests + 1 := by
          simp [applyBuyerEvent, SimulationMetrics.record_request]
        have hc3 : countSuccesses (BuyerEvent.respond false rt :: evts)
            = countSuccesses evts := by
          simp [countSuccesses, List.countP_cons]
        rw [hc1, hc2, hc3]
        omega

lemma can_fulfill_iff (s : ProviderState) (n : Int) (d : Bool) :
    s.can_fulfill_request n d = true ↔ n ≤ s.available_space_gb ∧ d = false := by
  unfold ProviderState.can_fulfill_request
  by_cases h1 : s.available_space_gb < n
  · simp only [h1, if_true]
    constructor
    · intro hfalse; exact absurd hfalse (by simp)
    · rintro ⟨ha, -⟩; omega
  · simp only [h1, if_false]
    cases d with
    | true => simp
    | false => simp; omega

lemma update_reputation_ledger (s : ProviderState) (b : Bool) :
    (s.update_reputation b).available_space_gb = s.available_space_gb ∧
      (s.update_reputation b).total_space_gb = s.total_space_gb ∧
      (s.update_reputation b).active_contracts = s.active_contracts := by
  cases b <;> simp [ProviderState.update_reputation]

lemma update_reputation_agent (s : ProviderState) (b : Bool) :
    (s.update_reputation b).agent_id = s.agent_id := by
  cases b <;> simp [ProviderState.update_reputation]

/-- C2: the admission decision.  An `allocation_request` is accepted iff
the provider has enough available space AND the failure draw (the
Bernoulli event `random.random() < failure_probability`, i.e. the
complement of a success draw of probability `1 − failure_probability`)
does not fire; a rejected request is answered with a normal
`allocation_response` of status `rejected` (the embedding is a total
function — no exception path exists) whose reason is
`insufficient_space` exactly when capacity was the binding constraint and
`provider_failure` otherwise. -/
theorem C2_admission_decision (s : ProviderState) (c : StorageContract)
    (rid : String) (failDraw : Bool) :
    ((s.process_allocation_request c rid failDraw).2.status = "accepted" ↔
      (c.space_gb ≤ s.available_space_gb ∧ failDraw = false)) ∧
    ((s.process_allocation_request c rid failDraw).2.status = "accepted" ∨
      (s.process_allocation_request c rid failDraw).2.status = "rejected") ∧
    ((s.process_allocation_request c rid failDraw).2.status = "rejected" →
      (s.process_allocation_request c rid failDraw).2.reason
        = some (if s.available_space_gb < c.space_gb then "insufficient_space"
            else "provider_failure")) := by
  by_cases hcf : s.can_fulfill_request c.space_gb failDraw = true
  · obtain ⟨hsp, hdraw⟩ := (can_fulfill_iff s c.space_gb failDraw).mp hcf
    subst hdraw
    refine ⟨?_, ?_, ?_⟩ <;>
      simp [ProviderState.process_allocation_request, hcf, hsp]
  · have hcf' : s.can_fulfill_request c.space_gb failDraw = false := by
      simpa using hcf
    have hko : ¬(c.space_gb ≤ s.available_space_gb ∧ failDraw = false) :=
      fun hok => hcf ((can_fulfill_iff s c.space_gb failDraw).mpr hok)
    refine ⟨?_, ?_, ?_⟩ <;>
      simp [ProviderState.process_allocation_request, hcf', hko]

/-- C2 witness: a concrete provider with 100 GB free accepts a 10 GB
contract when the failure draw does not fire. -/
theorem C2_admission_decision_witness :
    ((ProviderState.init "provider0" 100).process_allocation_request
      { contract_id := "CONT-1", buyer_id := "buyer0", provider_id := "provider0",
        space_gb := 10, duration_hours := 1, price_per_gb_hour := 1 / 2,
        total_cost := 5, start_time := 0, end_time := 3600, status := "pending" }
      "REQ-1" false).2.status = "accepted" :=
  (C2_admission_decision (ProviderState.init "provider0" 100) _ "REQ-1" false).1.mpr
    ⟨by norm_num [ProviderState.init], rfl⟩

lemma foldl_reputation_bounds (outcomes : List Bool) (s : ProviderState)
    (h1 : 1 / 10 ≤ s.reputation) (h2 : s.reputation ≤ 10) :
    1 / 10 ≤ (outcomes.foldl ProviderState.update_reputation s).reputation ∧
      (outcomes.foldl ProviderState.update_reputation s).reputation ≤ 10 := by
  induction outcomes generalizing s with
  | nil => exact ⟨h1, h2⟩
  | cons b bs ih =>
    obtain ⟨g1, g2⟩ := update_reputation_bounds s b h1 h2
    exact ih _ g1 g2

/-- C3: the reputation random walk is bounded.  Starting from the
initial reputation 5.0, any finite sequence of success/failure outcomes
fed through `update_reputation` (success: ×1.02 capped at 10.0, failure:
×0.98 floored at 0.1) keeps the reputation inside `[0.1, 10.0]`; the
contract sweep — the only other state-mutating provider operation —
leaves the reputation untouched, and the admission path changes it only
through `update_reputation` itself. -/
theorem C3_reputation_bounded (aid : String) (total : Int) (outcomes : List Bool) :
    (1 / 10 ≤ (outcomes.foldl ProviderState.update_reputation
        (ProviderState.init aid total)).reputation ∧
      (outcomes.foldl ProviderState.update_reputation
        (ProviderState.init aid total)).reputation ≤ 10) ∧
    (∀ (s : ProviderState) (now : ℚ),
      (s.contract_manager_sweep now).reputation = s.reputation) ∧
    (∀ (s : ProviderState) (c : StorageContract) (rid : String) (draw : Bool),
      (s.process_allocation_request c rid draw).1.reputation
        = (s.update_reputation
            (s.can_fulfill_request c.space_gb draw)).reputation) := by
  refine ⟨?_, ?_, ?_⟩
  · exact foldl_reputation_bounds outcomes (ProviderState.init aid total)
      (by norm_num [ProviderState.init]) (by norm_num [ProviderState.init])
  · intro s now
    simp [ProviderState.contract_manager_sweep]
  · intro s c rid draw
    by_cases hcf : s.can_fulfill_request c.space_gb draw = true
    · simp [ProviderState.process_allocation_request, hcf,
        ProviderState.update_reputation]
    · simp only [Bool.not_eq_true] at hcf
      simp [ProviderState.process_allocation_request, hcf]

lemma process_accept_fields (s : ProviderState) (c : StorageContract) (rid : String)
    (draw : Bool) (hcf : s.can_fulfill_request c.space_gb draw = true) :
    (s.process_allocation_request c rid draw).1.available_space_gb
        = s.available_space_gb - c.space_gb ∧
      (s.process_allocation_request c rid draw).1.total_space_gb = s.total_space_gb ∧
      (s.process_allocation_request c rid draw).1.active_contracts
        = dictInsert s.active_contracts c.contract_id c ∧
      (s.process_allocation_request c rid draw).2.status = "accepted" := by
  simp [ProviderState.process_allocation_request, hcf, ProviderState.update_reputation]

lemma process_reject_fields (s : ProviderState) (c : StorageContract) (rid : String)
    (draw : Bool) (hcf : s.can_fulfill_request c.space_gb draw = false) :
    (s.process_allocation_request c rid draw).1.available_space_gb
        = s.available_space_gb ∧
      (s.process_allocation_request c rid draw).1.total_space_gb = s.total_space_gb ∧
      (s.process_allocation_request c rid draw).1.active_contracts
        = s.active_contracts ∧
      (s.process_allocation_request c rid draw).2.status = "rejected" := by
  simp [ProviderState.process_allocation_request, hcf, ProviderState.update_reputation]

lemma sweep_fields (s : ProviderState) (now : ℚ) :
    (s.contract_manager_sweep now).available_space_gb
        = s.available_space_gb +
          ((s.active_contracts.filter (fun kv => decide (kv.2.end_time ≤ now))).map
            (fun kv => kv.2.space_gb)).sum ∧
      (s.contract_manager_sweep now).total_space_gb = s.total_space_gb ∧
      (s.contract_manager_sweep now).active_contracts
        = s.active_contracts.filter (fun kv => !(decide (kv.2.end_time ≤ now))) := by
  simp [ProviderState.contract_manager_sweep]

/-- C1 (amended): the capacity-ledger invariant — `0 ≤ available ≤ total`
and `total − available = Σ space of active contracts` — holds initially
and is preserved by the admission path and the contract sweep, PROVIDED
every admitted contract carries a contract id not already active (Python
dict assignment silently overwrites an equal-id entry, which breaks the
ledger; see the counterexample) and nonnegative space.  Moreover the
coupling claimed by the spec holds: an accepted admission decrements
`available_space_gb` by exactly the contract's `space_gb` while storing
the contract, and a rejected admission leaves the ledger untouched. -/
theorem C1_ledger_invariant_preserved :
    (∀ (aid : String) (total : Int), 0 ≤ total →
      ProviderInv (ProviderState.init aid total)) ∧
    (∀ (s : ProviderState) (op : ProviderOp), ProviderInv s → OpWF s op →
      ProviderInv (s.applyOp op)) ∧
    (∀ (s : ProviderState) (c : StorageContract) (rid : String) (draw : Bool),
      ((s.process_allocation_request c rid draw).2.status = "accepted" →
        (s.process_allocation_request c rid draw).1.available_space_gb
            = s.available_space_gb - c.space_gb ∧
          dictGet (s.process_allocation_request c rid draw).1.active_contracts
            c.contract_id = some c) ∧
      ((s.process_allocation_request c rid draw).2.status = "rejected" →
        (s.process_allocation_request c rid draw).1.available_space_gb
            = s.available_space_gb ∧
          (s.process_allocation_request c rid draw).1.active_contracts
            = s.active_contracts)) := by
  refine ⟨?_, ?_, ?_⟩
  · intro aid total h
    refine ⟨⟨?_, ?_, ?_⟩, ?_⟩ <;> simp [ProviderState.init, ledger_invariant, h]
  · intro s op hInv hWF
    obtain ⟨⟨hi1, hi2, hi3⟩, hwf⟩ := hInv
    cases op with
    | alloc c rid draw =>
      obtain ⟨hcsp, hfresh⟩ := hWF
      cases hcf : s.can_fulfill_request c.space_gb draw with
      | true =>
        obtain ⟨ha, ht, hac, -⟩ := process_accept_fields s c rid draw hcf
        have hsp : c.space_gb ≤ s.available_space_gb :=
          ((can_fulfill_iff s c.space_gb draw).mp hcf).1
        have hins := dictInsert_of_get_none s.active_contracts c.contract_id c hfresh
        refine ⟨⟨?_, ?_, ?_⟩, ?_⟩
        · rw [ProviderState.applyOp, ha]; omega
        · rw [ProviderState.applyOp, ha, ht]; omega
        · rw [ProviderState.applyOp, ha, ht, hac, hins]
          simp only [List.map_append, List.sum_append, List.map_cons,
            List.sum_cons, List.map_nil, List.sum_nil]
          omega
        · intro kv hkv
          rw [ProviderState.applyOp, hac, hins] at hkv
          rcases List.mem_append.mp hkv with hmem | hmem
          · exact hwf kv hmem
          · have : kv = (c.contract_id, c) := by simpa using hmem
            simpa [this] using hcsp
      | false =>
        obtain ⟨ha, ht, hac, -⟩ := process_reject_fields s c rid draw hcf
        refine ⟨⟨?_, ?_, ?_⟩, ?_⟩
        · rw [ProviderState.applyOp, ha]; exact hi1
        · rw [ProviderState.applyOp, ha, ht]; exact hi2
        · rw [ProviderState.applyOp, ha, ht, hac]; exact hi3
        · intro kv hkv
          rw [ProviderState.applyOp, hac] at hkv
          exact hwf kv hkv
    | sweep now =>
      obtain ⟨ha, ht, hac⟩ := sweep_fields s now
      have hsplit := sum_map_filter_split (fun kv => decide (kv.2.end_time ≤ now))
        (fun kv => kv.2.space_gb) s.active_contracts
      have hexp : 0 ≤ ((s.active_contracts.filter
          (fun kv => decide (kv.2.end_time ≤ now))).map
            (fun kv => kv.2.space_gb)).sum :=
        sum_map_nonneg _ _ (fun kv hkv => hwf kv (List.mem_of_mem_filter hkv))
      have hrem : 0 ≤ ((s.active_contracts.filter
          (fun kv => !(decide (kv.2.end_time ≤ now)))).map
            (fun kv => kv.2.space_gb)).sum :=
        sum_map_nonneg _ _ (fun kv hkv => hwf kv (List.mem_of_mem_filter hkv))
      refine ⟨⟨?_, ?_, ?_⟩, ?_⟩
      · rw [ProviderState.applyOp, ha]; omega
      · rw [ProviderState.applyOp, ha, ht]; omega
      · rw [ProviderState.applyOp, ha, ht, hac]; omega
      · intro kv hkv
        rw [ProviderState.applyOp, hac] at hkv
        exact hwf kv (List.mem_of_mem_filter hkv)
  · intro s c rid draw
    cases hcf : s.can_fulfill_request c.space_gb draw with
    | true =>
      obtain ⟨ha, -, hac, hst⟩ := process_accept_fields s c rid draw hcf
      refine ⟨fun _ => ⟨ha, ?_⟩, fun habs => absurd (hst.symm.trans habs) (by simp)⟩
      rw [hac]
      exact dictGet_dictInsert_self s.active_contracts c.contract_id c
    | false =>
      obtain ⟨ha, -, hac, hst⟩ := process_reject_fields s c rid draw hcf
      exact ⟨fun habs => absurd (hst.symm.trans habs) (by simp),
        fun _ => ⟨ha, hac⟩⟩

/-- A concrete admitted contract (10 GB for one hour). -/
def exContractA : StorageContract :=
  { contract_id := "CONT-7", buyer_id := "buyer0", provider_id := "provider0",
    space_gb := 10, duration_hours := 1, price_per_gb_hour := 1 / 2,
    total_cost := 5, start_time := 0, end_time := 3600, status := "pending" }

/-- A second contract that reuses the contract id of `exContractA` (the
broker's id scheme `CONT-<second>-<4-digit random>` can collide), with a
different space amount. -/
def exContractB : StorageContract :=
  { contract_id := "CONT-7", buyer_id := "buyer1", provider_id := "provider0",
    space_gb := 20, duration_hours := 1, price_per_gb_hour := 1 / 2,
    total_cost := 10, start_time := 0, end_time := 3600, status := "pending" }

/-- C1 counterexample: the ledger invariant is NOT preserved by every
admission.  From the initial 100 GB state, admitting `exContractA`
(10 GB, id CONT-7) keeps the invariant, but then admitting `exContractB`
(20 GB, same id CONT-7) is accepted by the admission test, decrements
available space by 20, yet Python dict assignment overwrites the
CONT-7 entry: afterwards `total − available = 30` while the active
contracts sum to only 20, so the claimed invariant is false at this
reachable state. -/
theorem C1_counterexample :
    ledger_invariant
      ((ProviderState.init "provider0" 100).process_allocation_request
        exContractA "r1" false).1 ∧
    (((ProviderState.init "provider0" 100).process_allocation_request
        exContractA "r1" false).1.process_allocation_request
        exContractB "r2" false).2.status = "accepted" ∧
    ¬ ledger_invariant
      (((ProviderState.init "provider0" 100).process_allocation_request
        exContractA "r1" false).1.process_allocation_request
        exContractB "r2" false).1 := by
  decide

/-- C1 witness: the initial 100 GB provider satisfies the invariant and
still satisfies it after admitting a fresh 10 GB contract. -/
theorem C1_ledger_invariant_preserved_witness :
    ProviderInv (ProviderState.init "provider0" 100) ∧
    ProviderInv ((ProviderState.init "provider0" 100).applyOp
      (ProviderOp.alloc exContractA "r1" false)) := by
  have h0 := C1_ledger_invariant_preserved.1 "provider0" 100 (by norm_num)
  exact ⟨h0, C1_ledger_invariant_preserved.2.1 _ _ h0
    ⟨by norm_num [exContractA], rfl⟩⟩

/-- C4: broker provider selection.  Registered providers are filtered by
available space, price cap, the reputation floor and last-seen
freshness; an empty candidate set makes `select_provider` return `none`
and `handle_storage_request` answer the buyer with
`failure`/`no_suitable_provider`; otherwise the selected provider is a
candidate of maximal weighted score 0.4·(reputation/10) +
0.3·(1 − price/max_price) + 0.2·(available/total) +
0.1·(success/(success+failure)).  The hypothesis
`0 < max_price_per_gb_hour` marks the only point where the rational
embedding and the Python float division can part ways (Python would
raise on `max_price = 0`); buyers always generate positive caps. -/
theorem C4_provider_selection (now : ℚ) (s : BrokerState) (buyer_id cid : String)
    (request : StorageRequest) (_hmp : 0 < request.max_price_per_gb_hour) :
    (select_provider now s.providers s.provider_last_seen request = none ↔
      (s.providers.map Prod.snd).filter
        (suitable now s.provider_last_seen request) = []) ∧
    (∀ r, select_provider now s.providers s.provider_last_seen request = some r →
      r ∈ (s.providers.map Prod.snd).filter
          (suitable now s.provider_last_seen request) ∧
        ∀ q ∈ (s.providers.map Prod.snd).filter
            (suitable now s.provider_last_seen request),
          calculate_score request q ≤ calculate_score request r) ∧
    ((s.providers.map Prod.snd).filter
        (suitable now s.provider_last_seen request) = [] →
      handle_storage_request now cid s buyer_id request
        = (s, .failure buyer_id
            { request_id := request.request_id, status := "failure",
              reason := some "no_suitable_provider", contract := none })) := by
  cases hc : (s.providers.map Prod.snd).filter
      (suitable now s.provider_last_seen request) with
  | nil =>
    refine ⟨?_, ?_, ?_⟩
    · simp [select_provider, hc]
    · intro r hr
      rw [select_provider, hc] at hr
      exact absurd hr (by simp)
    · intro _
      rw [handle_storage_request, select_provider, hc]
  | cons p ps =>
    have hsel : select_provider now s.providers s.provider_last_seen request
        = some (pickBest (calculate_score request) p ps) := by
      rw [select_provider, hc]
    refine ⟨?_, ?_, ?_⟩
    · rw [hsel]; simp
    · intro r hr
      rw [hsel] at hr
      obtain rfl : pickBest (calculate_score request) p ps = r :=
        Option.some.inj hr
      obtain ⟨l₁, l₂, hdec, hfront, hmax⟩ :=
        pickBest_spec (calculate_score request) ps p
      refine ⟨?_, ?_⟩
      · exact pickBest_mem (calculate_score request) ps p
      · intro q hq
        exact hmax q hq
    · intro habs
      exact absurd habs (by simp)

/-- A registered provider used in concrete selection scenarios. -/
def pEx_a : ProviderInfo :=
  { agent_id := "a", total_space_gb := 100, available_space_gb := 50,
    reputation := 5, price_per_gb_hour := 1 / 2, last_seen := 0,
    success_count := 0, failure_count := 0, response_time_avg := 0 }

/-- A second provider with a different id but an identical score. -/
def pEx_b : ProviderInfo :=
  { agent_id := "b", total_space_gb := 100, available_space_gb := 50,
    reputation := 5, price_per_gb_hour := 1 / 2, last_seen := 0,
    success_count := 0, failure_count := 0, response_time_avg := 0 }

/-- A concrete storage request used in selection scenarios. -/
def reqEx : StorageRequest :=
  { buyer_id := "buyer0", space_gb := 10, duration_hours := 2,
    max_price_per_gb_hour := 1, timestamp := 0, request_id := "REQ-1" }

/-- C4 witness: with the single suitable provider `pEx_a` registered,
selection returns a maximal-scoring candidate. -/
lemma suitable_pEx_a : suitable 0 [] reqEx pEx_a = true := by
  norm_num [suitable, pEx_a, reqEx, dictGetD, dictGet]

lemma select_single_pEx_a : select_provider 0 [("a", pEx_a)] [] reqEx = some pEx_a := by
  have hfil : (([("a", pEx_a)].map Prod.snd).filter (suitable 0 [] reqEx))
      = [pEx_a] := by
    simp [List.filter, suitable_pEx_a]
  rw [select_provider, hfil]
  rfl

theorem C4_provider_selection_witness :
    pEx_a ∈ ([("a", pEx_a)].map Prod.snd).filter (suitable 0 [] reqEx) ∧
      ∀ q ∈ ([("a", pEx_a)].map Prod.snd).filter (suitable 0 [] reqEx),
        calculate_score reqEx q ≤ calculate_score reqEx pEx_a :=
  (C4_provider_selection 0
    { providers := [("a", pEx_a)], provider_last_seen := [],
      pending_allocations := [] }
    "buyer0" "CONT-1" reqEx (by norm_num [reqEx])).2.1 pEx_a select_single_pEx_a

/-- C6: every contract the broker constructs — the pending contract at
match time and the active contract rebuilt when relaying a non-corrupted
acceptance — satisfies `total_cost = space_gb · duration_hours ·
price_per_gb_hour`, and when `duration_hours > 0` its `end_time`
(`now + duration·3600`) strictly exceeds its `start_time`; the final
conjunct pins down that the success relay indeed carries the rebuilt
active contract. -/
theorem C6_contract_arithmetic (now : ℚ) (cid : String) (request : StorageRequest)
    (provider : ProviderInfo) :
    ((mkPendingContract now cid request provider).total_cost
        = ((mkPendingContract now cid request provider).space_gb : ℚ)
          * (mkPendingContract now cid request provider).duration_hours
          * (mkPendingContract now cid request provider).price_per_gb_hour) ∧
    ((mkActiveContract now cid request provider).total_cost
        = ((mkActiveContract now cid request provider).space_gb : ℚ)
          * (mkActiveContract now cid request provider).duration_hours
          * (mkActiveContract now cid request provider).price_per_gb_hour) ∧
    (0 < request.duration_hours →
      (mkPendingContract now cid request provider).start_time
          < (mkPendingContract now cid request provider).end_time ∧
        (mkActiveContract now cid request provider).start_time
          < (mkActiveContract now cid request provider).end_time) ∧
    (∀ (s : BrokerState) (resp : AllocationResponse) (b : String)
        (req : StorageRequest) (p : ProviderInfo),
      dictGet s.pending_allocations resp.request_id = some (b, req, p) →
      resp.status = "accepted" →
      (handle_allocation_response now s resp false).2
        = [(b, { request_id := resp.request_id, status := "success",
                 reason := none,
                 contract := some (mkActiveContract now (resp.contract_id.getD "")
                   req p) })]) := by
  refine ⟨rfl, rfl, ?_, ?_⟩
  · intro hd
    constructor <;>
      · simp only [mkPendingContract, mkActiveContract]
        nlinarith
  · intro s resp b req p hpend hacc
    simp [handle_allocation_response, hpend, hacc]

/-- C6 witness: a concrete 10 GB, 2 h request at 0.5 $/GB/h yields a
pending contract with total cost 10 and a strictly later end time. -/
theorem C6_contract_arithmetic_witness :
    (mkPendingContract 0 "CONT-1" reqEx pEx_a).total_cost
        = ((mkPendingContract 0 "CONT-1" reqEx pEx_a).space_gb : ℚ)
          * (mkPendingContract 0 "CONT-1" reqEx pEx_a).duration_hours
          * (mkPendingContract 0 "CONT-1" reqEx pEx_a).price_per_gb_hour ∧
      (mkPendingContract 0 "CONT-1" reqEx pEx_a).start_time
        < (mkPendingContract 0 "CONT-1" reqEx pEx_a).end_time :=
  ⟨(C6_contract_arithmetic 0 "CONT-1" reqEx pEx_a).1,
    ((C6_contract_arithmetic 0 "CONT-1" reqEx pEx_a).2.2.1
      (by norm_num [reqEx])).1⟩

/-- C7 (amended): provider selection is a pure function of the ordered
registry snapshot, the last-seen map, the time and the request — equal
snapshots give equal results — and among equal-scoring candidates the
tie is broken by POSITION in the registry's iteration (insertion) order:
the selected provider is the earliest candidate of maximal score, every
earlier candidate scoring strictly less.  Ties are NOT broken
lexicographically by provider id (see the counterexample). -/
theorem C7_selection_determinism (now : ℚ)
    (providers : List (String × ProviderInfo)) (lastSeen : List (String × ℚ))
    (request : StorageRequest) :
    (∀ (s₁ s₂ : BrokerState), s₁.providers = providers →
      s₂.providers = providers → s₁.provider_last_seen = lastSeen →
      s₂.provider_last_seen = lastSeen →
      select_provider now s₁.providers s₁.provider_last_seen request
        = select_provider now s₂.providers s₂.provider_last_seen request) ∧
    (∀ r, select_provider now providers lastSeen request = some r →
      ∃ l₁ l₂,
        (providers.map Prod.snd).filter (suitable now lastSeen request)
            = l₁ ++ r :: l₂ ∧
          (∀ q ∈ l₁, calculate_score request q < calculate_score request r) ∧
          ∀ q ∈ l₁ ++ r :: l₂,
            calculate_score request q ≤ calculate_score request r) := by
  constructor
  · intro s₁ s₂ h1 h2 h3 h4
    rw [h1, h2, h3, h4]
  · intro r hr
    cases hc : (providers.map Prod.snd).filter (suitable now lastSeen request) with
    | nil =>
      rw [select_provider, hc] at hr
      exact absurd hr (by simp)
    | cons p ps =>
      rw [select_provider, hc] at hr
      obtain rfl : pickBest (calculate_score request) p ps = r :=
        Option.some.inj hr
      obtain ⟨l₁, l₂, hdec, hfront, hmax⟩ :=
        pickBest_spec (calculate_score request) ps p
      exact ⟨l₁, l₂, hdec, hfront, fun q hq => hmax q (hdec ▸ hq)⟩

lemma suitable_pEx_b : suitable 0 [] reqEx pEx_b = true := by
  norm_num [suitable, pEx_b, reqEx, dictGetD, dictGet]

lemma score_pEx_ab : calculate_score reqEx pEx_a = calculate_score reqEx pEx_b := by
  norm_num [calculate_score, pEx_a, pEx_b, reqEx]

/-- C7 counterexample: two registered providers with ids "a" and "b" and
IDENTICAL scores.  With registry iteration order [a, b] the broker
selects "a"; with order [b, a] it selects "b".  The tie between
equal-scoring candidates is therefore resolved by dict-insertion
(iteration) order, not by any deterministic content-based rule such as
lexicographic provider id — with order [b, a] the selected id "b" is not
the lexicographic minimum of the tied set. -/
theorem C7_counterexample :
    calculate_score reqEx pEx_a = calculate_score reqEx pEx_b ∧
      pEx_a ≠ pEx_b ∧
      select_provider 0 [("a", pEx_a), ("b", pEx_b)] [] reqEx = some pEx_a ∧
      select_provider 0 [("b", pEx_b), ("a", pEx_a)] [] reqEx = some pEx_b := by
  have hne : pEx_a ≠ pEx_b := by
    intro h
    have : pEx_a.agent_id = pEx_b.agent_id := by rw [h]
    simp [pEx_a, pEx_b] at this
  have hab : (([("a", pEx_a), ("b", pEx_b)].map Prod.snd).filter
      (suitable 0 [] reqEx)) = [pEx_a, pEx_b] := by
    simp [List.filter, suitable_pEx_a, suitable_pEx_b]
  have hba : (([("b", pEx_b), ("a", pEx_a)].map Prod.snd).filter
      (suitable 0 [] reqEx)) = [pEx_b, pEx_a] := by
    simp [List.filter, suitable_pEx_a, suitable_pEx_b]
  refine ⟨score_pEx_ab, hne, ?_, ?_⟩
  · rw [select_provider, hab]
    have hpb : pickBest (calculate_score reqEx) pEx_a [pEx_b] = pEx_a := by
      simp [pickBest, score_pEx_ab]
    exact congrArg some hpb
  · rw [select_provider, hba]
    have hpb : pickBest (calculate_score reqEx) pEx_b [pEx_a] = pEx_b := by
      simp [pickBest, score_pEx_ab]
    exact congrArg some hpb

/-- C7 witness: with the single provider `pEx_a` registered, selection
decomposes the candidate list around the selected maximal-scoring
element. -/
theorem C7_selection_determinism_witness :
    ∃ l₁ l₂,
      (([("a", pEx_a)].map Prod.snd).filter (suitable 0 [] reqEx))
          = l₁ ++ pEx_a :: l₂ ∧
        (∀ q ∈ l₁, calculate_score reqEx q < calculate_score reqEx pEx_a) ∧
        ∀ q ∈ l₁ ++ pEx_a :: l₂,
          calculate_score reqEx q ≤ calculate_score reqEx pEx_a :=
  (C7_selection_determinism 0 [("a", pEx_a)] [] reqEx).2 pEx_a select_single_pEx_a

/-- C5: asymmetric corruption fault.  When a provider accepts an
allocation (enough space, failure draw clear) and the broker's
corruption draw fires while relaying, the buyer gets a `storage_response`
of status `failure` with reason `network_corruption`, the broker sends
no message to the provider (every outbound message targets the buyer),
and the provider's commitment stands: its available space stays
decremented by the contract's space and the contract stays in its active
dict, surviving every contract sweep run before its `end_time`. -/
theorem C5_corruption_asymmetry (now : ℚ) (ps : ProviderState)
    (c : StorageContract) (rid : String) (s : BrokerState)
    (buyer : String) (req : StorageRequest) (pinfo : ProviderInfo)
    (hspace : c.space_gb ≤ ps.available_space_gb)
    (hpend : dictGet s.pending_allocations rid = some (buyer, req, pinfo))
    (hbuyer : buyer ≠ ps.agent_id) :
    (ps.process_allocation_request c rid false).2.status = "accepted" ∧
    (handle_allocation_response now s
        (ps.process_allocation_request c rid false).2 true).2
      = [(buyer, { request_id := rid, status := "failure",
                   reason := some "network_corruption", contract := none })] ∧
    (∀ out ∈ (handle_allocation_response now s
        (ps.process_allocation_request c rid false).2 true).2,
      out.1 ≠ ps.agent_id) ∧
    (ps.process_allocation_request c rid false).1.available_space_gb
        = ps.available_space_gb - c.space_gb ∧
    dictGet (ps.process_allocation_request c rid false).1.active_contracts
        c.contract_id = some c ∧
    ∀ t : ℚ, t < c.end_time →
      dictGet ((ps.process_allocation_request c rid
          false).1.contract_manager_sweep t).active_contracts c.contract_id
        = some c := by
  have hcf : ps.can_fulfill_request c.space_gb false = true :=
    (can_fulfill_iff ps c.space_gb false).mpr ⟨hspace, rfl⟩
  obtain ⟨ha, ht, hac, hst⟩ := process_accept_fields ps c rid false hcf
  have hresp : (ps.process_allocation_request c rid false).2
      = { request_id := rid, status := "accepted", reason := none,
          contract_id := some c.contract_id, provider_id := ps.agent_id } := by
    simp [ProviderState.process_allocation_request, hcf]
  have hout : (handle_allocation_response now s
      (ps.process_allocation_request c rid false).2 true).2
      = [(buyer, { request_id := rid, status := "failure",
                   reason := some "network_corruption", contract := none })] := by
    rw [hresp]
    simp [handle_allocation_response, hpend]
  have hget : dictGet (ps.process_allocation_request c rid
      false).1.active_contracts c.contract_id = some c := by
    rw [hac]
    exact dictGet_dictInsert_self _ _ _
  refine ⟨hst, hout, ?_, ha, hget, ?_⟩
  · intro out hmem
    rw [hout] at hmem
    rw [List.mem_singleton.mp hmem]
    exact hbuyer
  · intro t htlt
    obtain ⟨-, -, hacts⟩ :=
      sweep_fields (ps.process_allocation_request c rid false).1 t
    rw [hacts]
    apply dictGet_filter _ _ _ _ hget
    simpa using not_le.mpr htlt

/-- C5 witness: a concrete corrupted round trip — the provider accepts
the 10 GB contract and the broker reports `network_corruption` to the
buyer. -/
theorem C5_corruption_asymmetry_witness :
    ((ProviderState.init "provider0" 100).process_allocation_request
        exContractA "r1" false).2.status = "accepted" ∧
    (handle_allocation_response 0
        { providers := [], provider_last_seen := [],
          pending_allocations := [("r1", ("buyer0", reqEx, pEx_a))] }
        ((ProviderState.init "provider0" 100).process_allocation_request
          exContractA "r1" false).2 true).2
      = [("buyer0", { request_id := "r1", status := "failure",
                      reason := some "network_corruption", contract := none })] := by
  have h := C5_corruption_asymmetry 0 (ProviderState.init "provider0" 100)
    exContractA "r1"
    { providers := [], provider_last_seen := [],
      pending_allocations := [("r1", ("buyer0", reqEx, pEx_a))] }
    "buyer0" reqEx pEx_a
    (by norm_num [ProviderState.init, exContractA])
    (by simp [dictGet]) (by decide)
  exact ⟨h.1, h.2.1⟩

/-- C8 (implicit): the buyer records every successfully sent request as
a failed request at send time and records it again when the response
arrives, so over any event trace in which responses never outnumber
sends, `total_requests` counts each answered request twice,
`failed_requests` dominates the send count, and the summary's
success rate can never exceed 50%. -/
theorem C8_success_rate_capped (evts : List BuyerEvent) (f : ℚ → ℚ)
    (now now₀ : ℚ) (h : countResponds evts ≤ countSends evts) :
    (runBuyerEvents (SimulationMetrics.reset now₀) evts).total_requests
        = countSends evts + countResponds evts ∧
    countSends evts
        ≤ (runBuyerEvents (SimulationMetrics.reset now₀) evts).failed_requests ∧
    (runBuyerEvents (SimulationMetrics.reset now₀) evts).successful_requests
        ≤ countResponds evts ∧
    ((runBuyerEvents (SimulationMetrics.reset now₀) evts).get_summary f
        now).success_rate ≤ 50 := by
  obtain ⟨ht, hs, hsr, hf⟩ :=
    runBuyerEvents_counters evts (SimulationMetrics.reset now₀)
  have hz : (SimulationMetrics.reset now₀).total_requests = 0 ∧
      (SimulationMetrics.reset now₀).successful_requests = 0 ∧
      (SimulationMetrics.reset now₀).failed_requests = 0 :=
    ⟨rfl, rfl, rfl⟩
  obtain ⟨hz1, hz2, hz3⟩ := hz
  rw [hz1] at ht
  rw [hz2] at hs
  rw [hz3] at hf
  refine ⟨by omega, by omega, by omega, ?_⟩
  have hkey : 2 * (runBuyerEvents (SimulationMetrics.reset now₀)
      evts).successful_requests
      ≤ max (runBuyerEvents (SimulationMetrics.reset now₀) evts).total_requests
          1 := by
    omega
  simp only [SimulationMetrics.get_summary]
  set n : ℕ := max (runBuyerEvents (SimulationMetrics.reset now₀)
    evts).total_requests 1 with hn
  have hdpos : (0 : ℚ) < (n : ℚ) := by
    have h1n : 1 ≤ n := hn ▸ le_max_right _ _
    exact_mod_cast Nat.lt_of_lt_of_le Nat.zero_lt_one h1n
  rw [div_mul_eq_mul_div, div_le_iff₀ hdpos]
  have hcast : ((2 * (runBuyerEvents (SimulationMetrics.reset now₀)
      evts).successful_requests : ℕ) : ℚ) ≤ (n : ℚ) := Nat.cast_le.mpr hkey
  push_cast at hcast
  linarith

/-- C8 witness: the trace consisting of one sent request and its
successful response yields a 50% success rate, within the bound. -/
theorem C8_success_rate_capped_witness :
    ((runBuyerEvents (SimulationMetrics.reset 0)
        [BuyerEvent.send, BuyerEvent.respond true 1]).get_summary (fun q => q)
        0).success_rate ≤ 50 :=
  (C8_success_rate_capped [BuyerEvent.send, BuyerEvent.respond true 1]
    (fun q => q) 0 0 (by decide)).2.2.2

/-- C9: message-bus send.  Sending to an unregistered agent id returns
failure, leaves the whole bus state (every mailbox and the message
counter) unchanged and suspends the caller for no simulated latency;
sending to a registered agent appends exactly one envelope at the end of
that destination's inbox and returns success. -/
theorem C9_send_message (α : Type) (bus : MessageBus α)
    (from_agent to_agent : String) (msg : α) (now latency : ℚ) :
    (dictGet bus.mailboxes to_agent = none →
      (bus.send_message from_agent to_agent msg now latency).1 = false ∧
        (bus.send_message from_agent to_agent msg now latency).2.1 = bus ∧
        (bus.send_message from_agent to_agent msg now latency).2.2 = 0) ∧
    (∀ inbox, dictGet bus.mailboxes to_agent = some inbox →
      (bus.send_message from_agent to_agent msg now latency).1 = true ∧
        dictGet (bus.send_message from_agent to_agent msg now
            latency).2.1.mailboxes to_agent
          = some (inbox ++
              [{ from_agent := from_agent, to_agent := to_agent,
                 body := msg, timestamp := now, latency := latency,
                 id := bus.message_count }])) := by
  constructor
  · intro h
    refine ⟨?_, ?_, ?_⟩ <;> simp [MessageBus.send_message, h]
  · intro inbox h
    refine ⟨?_, ?_⟩ <;>
      simp [MessageBus.send_message, h, dictGet_dictInsert_self]

/-- A concrete bus with a single registered agent "x". -/
def busEx : MessageBus Nat :=
  { mailboxes := [("x", [])], message_count := 0 }

/-- C9 witness: sending to the unregistered "y" fails and leaves the bus
untouched; sending to the registered "x" succeeds. -/
theorem C9_send_message_witness :
    ((busEx.send_message "a" "y" 7 0 (1 / 10)).1 = false ∧
        (busEx.send_message "a" "y" 7 0 (1 / 10)).2.1 = busEx) ∧
      (busEx.send_message "a" "x" 7 0 (1 / 10)).1 = true := by
  have h1 := (C9_send_message Nat busEx "a" "y" 7 0 (1 / 10)).1
    (by simp [busEx, dictGet])
  have h2 := (C9_send_message Nat busEx "a" "x" 7 0 (1 / 10)).2 []
    (by simp [busEx, dictGet])
  exact ⟨⟨h1.1, h1.2.1⟩, h2.1⟩

/-- C10: the metrics summary is total on empty sample sets.  On a freshly
reset accumulator every mean, rate and the standard deviation in the
summary is 0 (the `max(·,1)` guards make the success-, completion- and
corruption-rate divisions well defined), and for ANY accumulator the
standard deviation reported is 0 whenever fewer than two response-time
samples exist; the embedding is a total function, so no input raises. -/
theorem C10_summary_totality (f : ℚ → ℚ) (now now₀ : ℚ)
    (m : SimulationMetrics) (hshort : m.response_times.length ≤ 1) :
    ((SimulationMetrics.reset now₀).get_summary f now).success_rate = 0 ∧
    ((SimulationMetrics.reset now₀).get_summary f now).avg_response_time = 0 ∧
    ((SimulationMetrics.reset now₀).get_summary f now).std_response_time = 0 ∧
    ((SimulationMetrics.reset now₀).get_summary f now).avg_duration_hours = 0 ∧
    ((SimulationMetrics.reset now₀).get_summary f now).avg_value = 0 ∧
    ((SimulationMetrics.reset now₀).get_summary f now).completion_rate = 0 ∧
    ((SimulationMetrics.reset now₀).get_summary f now).avg_utilization = 0 ∧
    ((SimulationMetrics.reset now₀).get_summary f now).avg_reputation = 0 ∧
    ((SimulationMetrics.reset now₀).get_summary f now).total_earnings = 0 ∧
    ((SimulationMetrics.reset now₀).get_summary f
        now).avg_earnings_per_provider = 0 ∧
    ((SimulationMetrics.reset now₀).get_summary f now).avg_latency = 0 ∧
    ((SimulationMetrics.reset now₀).get_summary f now).corruption_rate = 0 ∧
    (m.get_summary f now).std_response_time = 0 := by
  refine ⟨?_, ?_, ?_, ?_, ?_, ?_, ?_, ?_, ?_, ?_, ?_, ?_, ?_⟩ <;>
    simp [SimulationMetrics.get_summary, SimulationMetrics.reset, Nat.not_lt,
      hshort]

/-- A metrics accumulator holding exactly one response-time sample. -/
def mOneSample : SimulationMetrics :=
  { SimulationMetrics.reset 0 with response_times := [5] }

/-- C10 witness: an accumulator holding a single response-time sample
still reports a standard deviation of 0. -/
theorem C10_summary_totality_witness :
    ((mOneSample).get_summary (fun q => q) 0).std_response_time = 0 :=
  (C10_summary_totality (fun q => q) 0 0 mOneSample
    (by decide)).2.2.2.2.2.2.2.2.2.2.2.2
